import Mathlib

set_option maxRecDepth 4000

/-!
Verification of the voltage-to-pH calibration engine and the bounded
sample-stream buffer of the pH dashboard (`software/UI_streamlit/main.py`).

Modelling conventions:
* Python floats are modelled as exact rationals (`ℚ`); the Nernst slope
  involves `ln 10`, so the Nernst functions live over `ℝ`.
* The Python `float("nan")` sentinel is modelled as `Option.none`; a regular
  value `x` is `some x`.
* `collections.deque(maxlen := C)` is modelled as a `List` together with the
  append operation `dequeAppend` that keeps only the last `C` elements.
* Regular-expression search (`re.search`) is modelled by an explicit
  left-to-right scan with hand-rolled matchers for the two patterns used by
  `parse_voltage_from_line`.
-/

/-- Two-point linear calibration, from `ph_two_point` in
`software/UI_streamlit/main.py` (lines 59-65): if `abs (V2 - V1) < 1e-12`
return the NaN sentinel (`none`), else `pH = a*V + b` with
`a = (pH2-pH1)/(V2-V1)` and `b = pH1 - a*V1`. -/
def ph_two_point (volts pH1 V1 pH2 V2 : ℚ) : Option ℚ :=
  if |V2 - V1| < 1e-12 then none
  else
    let a := (pH2 - pH1) / (V2 - V1)
    let b := pH1 - a * V1
    some (a * volts + b)

/-- C1 (counterexample): with `V1 = 0` and `V2 = 1e-13` the calibration points
are distinct (`V1 ≠ V2`), yet `ph_two_point` evaluated at `V1` does not give
back `pH1 = 7`: the guard `|V2 - V1| < 1e-12` fires and the NaN sentinel is
returned instead. -/
theorem ph_two_point_eq_at_V1_fails_for_tiny_gap :
    (0 : ℚ) ≠ 1e-13 ∧ ph_two_point 0 7 0 4 1e-13 ≠ some 7 := by
  constructor
  · norm_num
  · have h : |(1e-13 : ℚ)| < 1e-12 := by
      rw [abs_of_nonneg (by norm_num : (0:ℚ) ≤ 1e-13)]
      norm_num
    simp [ph_two_point, h]

/-- C1 (amended): for parameters with `1e-12 ≤ |V2 - V1|` (so the degenerate
guard does not fire), `ph_two_point` returns `a*v + b` with
`a = (pH2-pH1)/(V2-V1)`, `b = pH1 - a*V1` — affine in `v` — and evaluating at
the calibration voltages returns the reference pH values exactly. -/
theorem ph_two_point_affine_and_exact (v pH1 V1 pH2 V2 : ℚ)
    (h : 1e-12 ≤ |V2 - V1|) :
    ph_two_point v pH1 V1 pH2 V2 =
      some ((pH2 - pH1) / (V2 - V1) * v + (pH1 - (pH2 - pH1) / (V2 - V1) * V1)) ∧
    ph_two_point V1 pH1 V1 pH2 V2 = some pH1 ∧
    ph_two_point V2 pH1 V1 pH2 V2 = some pH2 := by
  have hguard : ¬ |V2 - V1| < 1e-12 := not_lt.mpr h
  have hne : V2 - V1 ≠ 0 := by
    intro h0
    rw [h0] at h
    norm_num at h
  refine ⟨?_, ?_, ?_⟩
  · simp only [ph_two_point, hguard, if_false]
  · simp only [ph_two_point, hguard, if_false, Option.some.injEq]
    ring
  · simp only [ph_two_point, hguard, if_false, Option.some.injEq]
    linear_combination div_mul_cancel₀ (pH2 - pH1) hne

/-- C1 (witness): the amended theorem applied at the concrete calibration
`pH1 = 7, V1 = 2.5, pH2 = 4, V2 = 2.677`. -/
theorem ph_two_point_affine_and_exact_witness :
    ph_two_point (5/2) 7 (5/2) 4 (2677/1000) = some 7 :=
  (ph_two_point_affine_and_exact (5/2) 7 (5/2) 4 (2677/1000)
    (by rw [show |(2677/1000 : ℚ) - 5/2| = 177/1000 by
          rw [abs_of_nonneg] <;> norm_num]
        norm_num)).2.1

/-- C2: whenever `|V2 - V1| < 1e-12` (in particular when `V1 = V2`),
`ph_two_point` returns the NaN sentinel `none`; being a total function into
`Option ℚ`, it raises no division error on any such input. -/
theorem ph_two_point_degenerate (v pH1 V1 pH2 V2 : ℚ)
    (h : |V2 - V1| < 1e-12) :
    ph_two_point v pH1 V1 pH2 V2 = none := by
  simp [ph_two_point, h]

/-- C2 (witness): the degenerate case at `V1 = V2 = 1`. -/
theorem ph_two_point_degenerate_witness :
    ph_two_point 0 7 1 4 1 = none :=
  ph_two_point_degenerate 0 7 1 4 1 (by norm_num)

/-! ### Line parser (`parse_voltage_from_line`, main.py lines 74-87)

The Python function tries `re.search` with the tagged pattern
`[Vv]\s*[:=]\s*([+-]?\d+(?:\.\d+)?)` first, then with the bare number pattern
`([+-]?\d+(?:\.\d+)?)`, and converts the matched group with `float`.
`re.search` is modelled as a left-to-right scan that tries the (deterministic)
pattern at every start position; the matched numeric group is captured as a
`NumToken` (sign, integer part, fractional part and its digit count), whose
exact decimal value `tokenVal` models the `float` conversion. -/

/-- Python `\s` on the ASCII range: space, tab, newline, carriage return,
vertical tab, form feed. -/
def isSpaceChar (c : Char) : Bool :=
  c == ' ' || c == '\t' || c == '\n' || c == '\r' || c.toNat == 11 || c.toNat == 12

/-- Value of a digit string, most significant digit first. -/
def digitsToNat (ds : List Char) : ℕ :=
  ds.foldl (fun n c => 10 * n + (c.toNat - '0'.toNat)) 0

/-- The numeric group matched by `[+-]?\d+(?:\.\d+)?`: optional minus sign,
integer digits, and fractional digits together with how many there are. -/
structure NumToken where
  neg : Bool
  intPart : ℕ
  fracPart : ℕ
  fracLen : ℕ
deriving DecidableEq

/-- The rational value of a matched numeric group; models Python `float` on
the matched decimal literal. -/
def tokenVal (t : NumToken) : ℚ :=
  (if t.neg then -1 else 1) * ((t.intPart : ℚ) + (t.fracPart : ℚ) / 10 ^ t.fracLen)

/-- Consume the optional `[+-]` sign; `true` means a minus sign was read. -/
def stripSign : List Char → Bool × List Char
  | '+' :: r => (false, r)
  | '-' :: r => (true, r)
  | cs => (false, cs)

/-- Match `[+-]?\d+(?:\.\d+)?` at the start of `cs` (greedy, as the regex
engine behaves on this pattern). -/
def matchNumber (cs : List Char) : Option NumToken :=
  let s := stripSign cs
  let neg := s.1
  let cs1 := s.2
  let ds := cs1.takeWhile Char.isDigit
  if ds.isEmpty then none
  else
    match cs1.dropWhile Char.isDigit with
    | '.' :: r2 =>
      let fs := r2.takeWhile Char.isDigit
      if fs.isEmpty then some ⟨neg, digitsToNat ds, 0, 0⟩
      else some ⟨neg, digitsToNat ds, digitsToNat fs, fs.length⟩
    | _ => some ⟨neg, digitsToNat ds, 0, 0⟩

/-- Match `[Vv]\s*[:=]\s*([+-]?\d+(?:\.\d+)?)` at the start of `cs`,
returning the captured numeric group. -/
def matchTagged (cs : List Char) : Option NumToken :=
  match cs with
  | [] => none
  | c :: r =>
    if c = 'V' ∨ c = 'v' then
      match r.dropWhile isSpaceChar with
      | [] => none
      | d :: r2 =>
        if d = ':' ∨ d = '=' then matchNumber (r2.dropWhile isSpaceChar)
        else none
    else none

/-- `re.search`: try the pattern matcher at every start position, left to
right, returning the first success. -/
def searchFirst (m : List Char → Option NumToken) : List Char → Option NumToken
  | [] => none
  | c :: rest =>
    match m (c :: rest) with
    | some t => some t
    | none => searchFirst m rest

/-- `parse_voltage_from_line` from main.py: prefer a `V=`/`V:`-tagged number
anywhere in the line, else the first bare number, else `none`. -/
def parse_voltage_from_line (line : String) : Option ℚ :=
  match searchFirst matchTagged line.data with
  | some t => some (tokenVal t)
  | none =>
    match searchFirst matchNumber line.data with
    | some t => some (tokenVal t)
    | none => none

lemma stripSign_snd_subset (cs : List Char) : ∀ x ∈ (stripSign cs).2, x ∈ cs := by
  unfold stripSign
  split
  · intro x hx; exact List.mem_cons_of_mem _ hx
  · intro x hx; exact List.mem_cons_of_mem _ hx
  · intro x hx; exact hx

lemma takeWhile_digit_nil {cs : List Char} (h : ∀ c ∈ cs, c.isDigit = false) :
    cs.takeWhile Char.isDigit = [] := by
  cases cs with
  | nil => rfl
  | cons c r =>
    exact List.takeWhile_cons_of_neg (by simp [h c (List.mem_cons_self c r)])

lemma matchNumber_of_no_digit {cs : List Char} (h : ∀ c ∈ cs, c.isDigit = false) :
    matchNumber cs = none := by
  have h2 : ∀ x ∈ (stripSign cs).2, x.isDigit = false :=
    fun x hx => h x (stripSign_snd_subset cs x hx)
  simp [matchNumber, takeWhile_digit_nil h2]

lemma matchTagged_of_no_digit {cs : List Char} (h : ∀ c ∈ cs, c.isDigit = false) :
    matchTagged cs = none := by
  unfold matchTagged
  split
  · rfl
  · rename_i c r
    split
    · rename_i hc
      have hr : ∀ x ∈ r.dropWhile isSpaceChar, x.isDigit = false :=
        fun x hx =>
          h x (List.mem_cons_of_mem _ (List.dropWhile_subset _ hx))
      split
      · rfl
      · rename_i d r2 heq
        split
        · apply matchNumber_of_no_digit
          intro x hx
          have : x ∈ r.dropWhile isSpaceChar := by
            rw [heq]
            exact List.mem_cons_of_mem _ (List.dropWhile_subset _ hx)
          exact hr x this
        · rfl
    · rfl

lemma searchFirst_of_no_digit (m : List Char → Option NumToken)
    (hm : ∀ ds : List Char, (∀ c ∈ ds, c.isDigit = false) → m ds = none) :
    ∀ cs : List Char, (∀ c ∈ cs, c.isDigit = false) → searchFirst m cs = none := by
  intro cs
  induction cs with
  | nil => intro _; rfl
  | cons c r ih =>
    intro h
    unfold searchFirst
    rw [hm (c :: r) h]
    exact ih fun x hx => h x (List.mem_cons_of_mem _ hx)

lemma parse_of_tagged {line : String} {t : NumToken}
    (h : searchFirst matchTagged line.data = some t) :
    parse_voltage_from_line line = some (tokenVal t) := by
  simp [parse_voltage_from_line, h]

lemma parse_of_bare {line : String} {t : NumToken}
    (h1 : searchFirst matchTagged line.data = none)
    (h2 : searchFirst matchNumber line.data = some t) :
    parse_voltage_from_line line = some (tokenVal t) := by
  simp [parse_voltage_from_line, h1, h2]

lemma parse_of_no_match {line : String}
    (h1 : searchFirst matchTagged line.data = none)
    (h2 : searchFirst matchNumber line.data = none) :
    parse_voltage_from_line line = none := by
  simp [parse_voltage_from_line, h1, h2]

/-- C3: `parse_voltage_from_line` prefers a `V=`/`V:`-tagged decimal token
over a bare one, extracts the first decimal number on the spec's example
lines, returns `none` on a line with no numeric token (a token needs at least
one digit), and — being a total function into `Option ℚ` — never raises. -/
theorem parse_voltage_from_line_spec :
    parse_voltage_from_line "V=2.9734" = some (29734/10000) ∧
    parse_voltage_from_line "2.9734" = some (29734/10000) ∧
    parse_voltage_from_line "V,2.97,pH,7.01" = some (297/100) ∧
    parse_voltage_from_line "foo V: 3.1 bar" = some (31/10) ∧
    parse_voltage_from_line "no numbers here" = none ∧
    (∀ line : String, (∀ c ∈ line.data, c.isDigit = false) →
      parse_voltage_from_line line = none) := by
  refine ⟨?_, ?_, ?_, ?_, ?_, ?_⟩
  · rw [parse_of_tagged (t := ⟨false, 2, 9734, 4⟩) (by decide)]
    norm_num [tokenVal]
  · rw [parse_of_bare (t := ⟨false, 2, 9734, 4⟩) (by decide) (by decide)]
    norm_num [tokenVal]
  · rw [parse_of_bare (t := ⟨false, 2, 97, 2⟩) (by decide) (by decide)]
    norm_num [tokenVal]
  · rw [parse_of_tagged (t := ⟨false, 3, 1, 1⟩) (by decide)]
    norm_num [tokenVal]
  · exact parse_of_no_match (by decide) (by decide)
  · intro line h
    exact parse_of_no_match
      (searchFirst_of_no_digit _ (fun _ h' => matchTagged_of_no_digit h') _ h)
      (searchFirst_of_no_digit _ (fun _ h' => matchNumber_of_no_digit h') _ h)

/-- C3 (witness): the universally quantified no-numeric-token clause applied
to the concrete line `"garbage"`. -/
theorem parse_voltage_from_line_spec_witness :
    parse_voltage_from_line "garbage" = none :=
  parse_voltage_from_line_spec.2.2.2.2.2 "garbage" (by decide)

/-! ### Bounded sample buffers (main.py lines 99-108, 225-234, 239-245)

main.py keeps four parallel `deque(maxlen := MAX_BUFFER)` buffers.  A
`deque` append at capacity evicts the oldest element, which for a list model
is: append on the right, then drop from the left down to the capacity. -/

/-- `MAX_BUFFER = 10000` from main.py line 99. -/
def MAX_BUFFER : ℕ := 10000

/-- One `deque.append` on a `deque(maxlen := C)` modelled on lists. -/
def dequeAppend {α : Type} (C : ℕ) (buf : List α) (x : α) : List α :=
  let b := buf ++ [x]
  b.drop (b.length - C)

/-- Appending a whole list of samples one by one. -/
def appendAll {α : Type} (C : ℕ) (buf : List α) (xs : List α) : List α :=
  xs.foldl (dequeAppend C) buf

lemma dequeAppend_length {α : Type} (C : ℕ) (buf : List α) (x : α) :
    (dequeAppend C buf x).length = min (buf.length + 1) C := by
  simp [dequeAppend]
  omega

lemma dequeAppend_small {α : Type} {C : ℕ} (buf : List α) (x : α)
    (h : buf.length + 1 ≤ C) :
    dequeAppend C buf x = buf ++ [x] := by
  have h0 : buf.length + 1 - C = 0 := by omega
  simp [dequeAppend, h0]

lemma appendAll_eq {α : Type} (C : ℕ) :
    ∀ (xs buf : List α), buf.length ≤ C →
      appendAll C buf xs = (buf ++ xs).drop ((buf ++ xs).length - C) := by
  intro xs
  induction xs with
  | nil =>
    intro buf h
    simp [appendAll, Nat.sub_eq_zero_of_le h]
  | cons x xs ih =>
    intro buf h
    have hlen : (dequeAppend C buf x).length ≤ C := by
      rw [dequeAppend_length]
      omega
    have step : appendAll C buf (x :: xs) = appendAll C (dequeAppend C buf x) xs := rfl
    rw [step, ih _ hlen]
    have hm : (buf ++ [x]).length - C ≤ (buf ++ [x]).length := Nat.sub_le _ _
    show ((buf ++ [x]).drop ((buf ++ [x]).length - C) ++ xs).drop
        (((buf ++ [x]).drop ((buf ++ [x]).length - C) ++ xs).length - C) = _
    rw [← List.drop_append_of_le_length hm, List.drop_drop]
    rw [show buf ++ x :: xs = (buf ++ [x]) ++ xs by simp]
    congr 1
    simp
    omega

/-- C4: appending `C + k` samples to an initially empty buffer of capacity
`C` leaves exactly the last `C` samples (the first `k` are evicted, FIFO,
order preserved), and after any sequence of appends the length never
exceeds `C`. -/
theorem buffer_fifo_capacity (C k : ℕ) (xs : List ℚ) (h : xs.length = C + k) :
    appendAll C [] xs = xs.drop k ∧
    ∀ ys : List ℚ, (appendAll C [] ys).length ≤ C := by
  constructor
  · have he := appendAll_eq C xs [] (by simp)
    simp only [List.nil_append] at he
    rw [he, h]
    congr 1
    omega
  · intro ys
    have he := appendAll_eq C ys [] (by simp)
    simp only [List.nil_append] at he
    rw [he]
    simp
    omega

/-- C4 (witness): three appends into a buffer of capacity two keep the last
two samples. -/
theorem buffer_fifo_capacity_witness :
    appendAll 2 [] [(1 : ℚ), 2, 3] = [(1 : ℚ), 2, 3].drop 1 :=
  (buffer_fifo_capacity 2 1 [(1 : ℚ), 2, 3] (by decide)).1

/-- One derived record, mirroring the `Sample` dataclass of main.py
(lines 89-94) and one row of the rendered dataframe: relative timestamp,
voltage, two-point pH and Nernst pH (the pH fields carry the NaN sentinel
as `none`). -/
structure Sample where
  t_rel : ℚ
  V : ℚ
  pH_tp : Option ℚ
  pH_nernst : Option ℝ

/-- `df_vis = df.tail(window)` from main.py line 245: the last `n` rows of
the recorded history (or all of them when fewer). -/
def window (n : ℕ) (buf : List Sample) : List Sample :=
  buf.drop (buf.length - n)

/-- C8: `window n` returns the last `min n m` samples of an `m`-sample
buffer in stored order (it is the suffix completing `buf.take (m - n)`),
returns the whole buffer unchanged when `m ≤ n`, and — being a pure
function of the buffer — never mutates it. -/
theorem window_spec (n : ℕ) (buf : List Sample) :
    (window n buf).length = min n buf.length ∧
    buf.take (buf.length - n) ++ window n buf = buf ∧
    (buf.length ≤ n → window n buf = buf) := by
  refine ⟨?_, ?_, ?_⟩
  · simp [window]
    omega
  · simp [window]
  · intro h
    simp [window, Nat.sub_eq_zero_of_le h]

/-- C8 (witness): a one-sample buffer windowed with `n = 3` comes back
unchanged. -/
theorem window_spec_witness :
    window 3 [⟨0, 1, some 7, none⟩] = [⟨0, 1, some 7, none⟩] :=
  (window_spec 3 [⟨0, 1, some 7, none⟩]).2.2 (by decide)

/-! ### Nernst model (main.py lines 50-57 and 67-72)

`nernst_slope_volt_per_pH` and `ph_nernst` involve `math.log(10.0)`, so they
are modelled over `ℝ`. -/

/-- Gas constant, J/(mol K), main.py line 50. -/
noncomputable def R : ℝ := 8.31446261815324

/-- Faraday constant, C/mol, main.py line 51. -/
noncomputable def F : ℝ := 96485.33212

/-- `LN10 = math.log(10.0)`, main.py line 52. -/
noncomputable def LN10 : ℝ := Real.log 10

/-- Nernst slope in V/pH: `(R*T/F)*ln 10` with `T = temp_c + 273.15`. -/
noncomputable def nernst_slope_volt_per_pH (temp_c : ℝ) : ℝ :=
  (R * (temp_c + 273.15) / F) * LN10

/-- `ph_nernst` from main.py: `pH = 7 + sign*(E - E0)/S`, with the NaN
sentinel (`none`) when the slope is not positive. -/
noncomputable def ph_nernst (volts E0 temp_c : ℝ) (sign : ℤ) : Option ℝ :=
  let S := nernst_slope_volt_per_pH temp_c
  if S ≤ 0 then none
  else some (7 + (sign : ℝ) * (volts - E0) / S)

lemma log_ten_gt : (2.3022 : ℝ) < Real.log 10 := by
  have h2 : (0.6931471803 : ℝ) < Real.log 2 := Real.log_two_gt_d9
  have hp : (2:ℝ)^93 < 10^28 := by norm_num
  have hmono := Real.log_lt_log (by positivity) hp
  rw [Real.log_pow, Real.log_pow] at hmono
  push_cast at hmono
  nlinarith

lemma log_ten_lt : Real.log 10 < 2.3027 := by
  have h2 : Real.log 2 < 0.6931471808 := Real.log_two_lt_d9
  have hp : (10:ℝ)^59 < 2^196 := by norm_num
  have hmono := Real.log_lt_log (by positivity) hp
  rw [Real.log_pow, Real.log_pow] at hmono
  push_cast at hmono
  nlinarith

/-- C6: the Nernst slope is `(R*(tempC+273.15)/F)*ln 10` with the code's
numeric constants, and at 25 °C it is within `1e-4` of `0.05916` V/pH. -/
theorem nernst_slope_spec :
    (∀ t : ℝ, nernst_slope_volt_per_pH t =
      (8.31446261815324 * (t + 273.15) / 96485.33212) * Real.log 10) ∧
    |nernst_slope_volt_per_pH 25 - 0.05916| ≤ 1e-4 := by
  constructor
  · intro t
    rfl
  · have h1 := log_ten_gt
    have h2 := log_ten_lt
    unfold nernst_slope_volt_per_pH R F LN10
    rw [abs_le]
    constructor <;> nlinarith

/-- C5: `ph_nernst` returns the NaN sentinel exactly when the slope
`S = nernst_slope(tempC)` satisfies `S ≤ 0`, returns `7 + sign*(v-E0)/S`
otherwise, and `S ≤ 0` happens exactly for non-physical absolute
temperatures `tempC + 273.15 ≤ 0`. -/
theorem ph_nernst_spec (v E0 t : ℝ) (s : ℤ) :
    (nernst_slope_volt_per_pH t ≤ 0 → ph_nernst v E0 t s = none) ∧
    (0 < nernst_slope_volt_per_pH t →
      ph_nernst v E0 t s = some (7 + (s : ℝ) * (v - E0) / nernst_slope_volt_per_pH t)) ∧
    (nernst_slope_volt_per_pH t ≤ 0 ↔ t + 273.15 ≤ 0) := by
  have hlog : 0 < Real.log 10 := Real.log_pos (by norm_num)
  refine ⟨?_, ?_, ?_⟩
  · intro h
    simp [ph_nernst, h]
  · intro h
    simp [ph_nernst, not_le.mpr h]
  · unfold nernst_slope_volt_per_pH R F LN10
    have key : 8.31446261815324 * (t + 273.15) / 96485.33212 * Real.log 10 =
        (8.31446261815324 / 96485.33212 * Real.log 10) * (t + 273.15) := by ring
    have hc0 : (0:ℝ) < 8.31446261815324 / 96485.33212 * Real.log 10 :=
      mul_pos (by norm_num) hlog
    rw [key]
    constructor
    · intro h
      by_contra hc
      push_neg at hc
      exact absurd (mul_pos hc0 hc) (not_lt.mpr h)
    · intro h
      exact mul_nonpos_of_nonneg_of_nonpos hc0.le h

/-- C5 (witness): the non-degenerate branch at 25 °C with the code's default
electrode polarity. -/
theorem ph_nernst_spec_witness :
    ph_nernst 3 (5/2) 25 (-1) =
      some (7 + ((-1 : ℤ) : ℝ) * (3 - 5/2) / nernst_slope_volt_per_pH 25) :=
  (ph_nernst_spec 3 (5/2) 25 (-1)).2.1 (by
    unfold nernst_slope_volt_per_pH R F LN10
    have hlog : 0 < Real.log 10 := Real.log_pos (by norm_num)
    have : (0:ℝ) < 8.31446261815324 * (25 + 273.15) / 96485.33212 := by norm_num
    exact mul_pos this hlog)

/-! ### Acquisition state and the per-rerun tick (main.py lines 101-108,
187-193 and 225-234)

main.py holds four parallel `deque(maxlen := MAX_BUFFER)` buffers plus the
start-time anchor `t0` in session state.  Each rerun performs one
acquisition attempt: if a voltage was obtained, one derived value is
appended to every buffer; otherwise nothing is appended.  The sidebar
parameters form the configuration. -/

/-- The sidebar configuration consumed by one tick: two-point calibration
points, Nernst reference potential and temperature, electrode polarity. -/
structure Config where
  pH1 : ℚ
  V1 : ℚ
  pH2 : ℚ
  V2 : ℚ
  E0 : ℝ
  temp_c : ℝ
  sign : ℤ

/-- Session state: start-time anchor `t0` and the four parallel buffers. -/
structure AcqState where
  t0 : ℚ
  buf_t : List ℚ
  buf_V : List ℚ
  buf_pH_tp : List (Option ℚ)
  buf_pH_nernst : List (Option ℝ)

/-- `round(x, 3)` from main.py line 226, modelled with the half-up `round`
of `ℚ` (Python rounds half to even; the two differ only on exact
half-thousandths, which no claim exercises). -/
def round3 (x : ℚ) : ℚ := (round (x * 1000) : ℚ) / 1000

/-- One rerun of the buffer-update block (main.py lines 225-234): acquire a
voltage by parsing `line`; when parsing succeeds, append the voltage, both
pH estimates and the relative timestamp to the four buffers; when it fails,
leave the state untouched. -/
noncomputable def tick (cfg : Config) (st : AcqState) (line : String) (now : ℚ) :
    AcqState :=
  match parse_voltage_from_line line with
  | none => st
  | some v =>
    let t_rel := round3 (now - st.t0)
    { st with
      buf_V := dequeAppend MAX_BUFFER st.buf_V v
      buf_pH_tp := dequeAppend MAX_BUFFER st.buf_pH_tp
        (ph_two_point v cfg.pH1 cfg.V1 cfg.pH2 cfg.V2)
      buf_pH_nernst := dequeAppend MAX_BUFFER st.buf_pH_nernst
        (ph_nernst (v : ℝ) cfg.E0 cfg.temp_c cfg.sign)
      buf_t := dequeAppend MAX_BUFFER st.buf_t t_rel }

/-- The `Reset buffers` handler (main.py lines 187-193): clear all four
buffers and re-anchor `t0` to the current time. -/
def reset (now : ℚ) (_st : AcqState) : AcqState :=
  { t0 := now, buf_t := [], buf_V := [], buf_pH_tp := [], buf_pH_nernst := [] }

lemma tick_buf_t (cfg : Config) (st : AcqState) (line : String) (now : ℚ) :
    (tick cfg st line now).buf_t =
      match parse_voltage_from_line line with
      | none => st.buf_t
      | some _ => dequeAppend MAX_BUFFER st.buf_t (round3 (now - st.t0)) := by
  cases hp : parse_voltage_from_line line <;> simp [tick, hp]

lemma tick_buf_V (cfg : Config) (st : AcqState) (line : String) (now : ℚ) :
    (tick cfg st line now).buf_V =
      match parse_voltage_from_line line with
      | none => st.buf_V
      | some v => dequeAppend MAX_BUFFER st.buf_V v := by
  cases hp : parse_voltage_from_line line <;> simp [tick, hp]

lemma tick_buf_pH_tp (cfg : Config) (st : AcqState) (line : String) (now : ℚ) :
    (tick cfg st line now).buf_pH_tp =
      match parse_voltage_from_line line with
      | none => st.buf_pH_tp
      | some v => dequeAppend MAX_BUFFER st.buf_pH_tp
          (ph_two_point v cfg.pH1 cfg.V1 cfg.pH2 cfg.V2) := by
  cases hp : parse_voltage_from_line line <;> simp [tick, hp]

lemma tick_buf_pH_nernst (cfg : Config) (st : AcqState) (line : String) (now : ℚ) :
    (tick cfg st line now).buf_pH_nernst =
      match parse_voltage_from_line line with
      | none => st.buf_pH_nernst
      | some v => dequeAppend MAX_BUFFER st.buf_pH_nernst
          (ph_nernst (v : ℝ) cfg.E0 cfg.temp_c cfg.sign) := by
  cases hp : parse_voltage_from_line line <;> simp [tick, hp]

lemma tick_of_parse_none (cfg : Config) (st : AcqState) (line : String) (now : ℚ)
    (h : parse_voltage_from_line line = none) :
    tick cfg st line now = st := by
  simp [tick, h]

/-- C9: `reset` empties the four buffers, re-anchors `t0` to the reset time,
and is idempotent: resetting a state that was just reset gives the same
state as a single reset. -/
theorem reset_spec (t1 t2 : ℚ) (st : AcqState) :
    reset t2 (reset t1 st) = reset t2 st ∧
    (reset t1 st).t0 = t1 ∧
    (reset t1 st).buf_t = [] ∧
    (reset t1 st).buf_V = [] ∧
    (reset t1 st).buf_pH_tp = [] ∧
    (reset t1 st).buf_pH_nernst = [] :=
  ⟨rfl, rfl, rfl, rfl, rfl, rfl⟩

/-- The four parallel buffers have equal lengths, so index `i` denotes one
coherent sample record across them. -/
def buffers_aligned (st : AcqState) : Prop :=
  st.buf_t.length = st.buf_V.length ∧
  st.buf_V.length = st.buf_pH_tp.length ∧
  st.buf_pH_tp.length = st.buf_pH_nernst.length

/-- C10: a tick appends one element to all four buffers (when a voltage was
parsed) or to none of them (it leaves the state untouched), and `reset`
clears all four together — so equal buffer lengths are preserved by every
operation. -/
theorem buffers_stay_aligned (cfg : Config) (st : AcqState) (line : String)
    (now : ℚ) (h : buffers_aligned st) :
    buffers_aligned (tick cfg st line now) ∧
    buffers_aligned (reset now st) ∧
    (parse_voltage_from_line line = none → tick cfg st line now = st) := by
  refine ⟨?_, ⟨rfl, rfl, rfl⟩, tick_of_parse_none cfg st line now⟩
  obtain ⟨h1, h2, h3⟩ := h
  unfold buffers_aligned
  rw [tick_buf_t, tick_buf_V, tick_buf_pH_tp, tick_buf_pH_nernst]
  cases parse_voltage_from_line line with
  | none => exact ⟨h1, h2, h3⟩
  | some v =>
    simp only [dequeAppend_length]
    omega

/-- C10 (witness): alignment after one successful tick from the empty
state. -/
theorem buffers_stay_aligned_witness :
    buffers_aligned
      (tick ⟨7, 5/2, 4, 2677/1000, 5/2, 25, -1⟩ ⟨0, [], [], [], []⟩ "V=2.500" 1) :=
  (buffers_stay_aligned ⟨7, 5/2, 4, 2677/1000, 5/2, 25, -1⟩ ⟨0, [], [], [], []⟩
    "V=2.500" 1 ⟨rfl, rfl, rfl⟩).1

/-! ### End-to-end scenario (C7) -/

/-- The sidebar configuration of the scenario: `pH1 = 7.00, V1 = 2.500,
pH2 = 4.00, V2 = 2.677`, with the code's defaults `E0 = 2.500`,
`temp = 25.0`, `sign = -1` for the Nernst curve. -/
noncomputable def mainCfg : Config := ⟨7, 5/2, 4, 2677/1000, 5/2, 25, -1⟩

/-- Fresh session state: anchor at 0, all four buffers empty. -/
def initState : AcqState := ⟨0, [], [], [], []⟩

/-- C7: feeding the lines `"V=2.500"`, `"garbage"`, `"V=2.677"` leaves the
buffers with exactly two samples in arrival order, with two-point pH values
exactly `7` then `4`; the unparseable `"garbage"` line leaves the state
completely untouched (no placeholder entry in any buffer). -/
theorem end_to_end_scenario :
    tick mainCfg (tick mainCfg initState "V=2.500" 1) "garbage" 2
        = tick mainCfg initState "V=2.500" 1 ∧
    (tick mainCfg (tick mainCfg (tick mainCfg initState "V=2.500" 1) "garbage" 2)
        "V=2.677" 3).buf_pH_tp = [some 7, some 4] ∧
    (tick mainCfg (tick mainCfg (tick mainCfg initState "V=2.500" 1) "garbage" 2)
        "V=2.677" 3).buf_V = [5/2, 2677/1000] ∧
    (tick mainCfg (tick mainCfg (tick mainCfg initState "V=2.500" 1) "garbage" 2)
        "V=2.677" 3).buf_t.length = 2 ∧
    (tick mainCfg (tick mainCfg (tick mainCfg initState "V=2.500" 1) "garbage" 2)
        "V=2.677" 3).buf_pH_nernst.length = 2 := by
  have hp1 : parse_voltage_from_line "V=2.500" = some (5/2) := by
    rw [parse_of_tagged (t := ⟨false, 2, 500, 3⟩) (by decide)]
    norm_num [tokenVal]
  have hp2 : parse_voltage_from_line "garbage" = none :=
    parse_of_no_match (by decide) (by decide)
  have hp3 : parse_voltage_from_line "V=2.677" = some (2677/1000) := by
    rw [parse_of_tagged (t := ⟨false, 2, 677, 3⟩) (by decide)]
    norm_num [tokenVal]
  have e21 : tick mainCfg (tick mainCfg initState "V=2.500" 1) "garbage" 2
      = tick mainCfg initState "V=2.500" 1 :=
    tick_of_parse_none _ _ _ _ hp2
  have hsmall0 : ∀ {α : Type} (x : α), dequeAppend MAX_BUFFER ([] : List α) x = [x] := by
    intro α x
    rw [dequeAppend_small]
    · rfl
    · norm_num [MAX_BUFFER]
  have hsmall1 : ∀ {α : Type} (y x : α), dequeAppend MAX_BUFFER [y] x = [y, x] := by
    intro α y x
    rw [dequeAppend_small]
    · rfl
    · norm_num [MAX_BUFFER]
  refine ⟨e21, ?_, ?_, ?_, ?_⟩
  · rw [e21, tick_buf_pH_tp, hp3, tick_buf_pH_tp, hp1]
    show dequeAppend MAX_BUFFER (dequeAppend MAX_BUFFER [] _) _ = _
    rw [hsmall0, hsmall1]
    have habs2 : ¬ |(177/1000 : ℚ)| < 1/1000000000000 := by
      rw [abs_of_nonneg (by norm_num : (0:ℚ) ≤ 177/1000)]
      norm_num
    have v1 : ph_two_point (5/2) mainCfg.pH1 mainCfg.V1 mainCfg.pH2 mainCfg.V2
        = some 7 := by
      norm_num [ph_two_point, mainCfg]
      intro hlt
      exact absurd hlt habs2
    have v2 : ph_two_point (2677/1000) mainCfg.pH1 mainCfg.V1 mainCfg.pH2 mainCfg.V2
        = some 4 := by
      norm_num [ph_two_point, mainCfg]
      intro hlt
      exact absurd hlt habs2
    rw [v1, v2]
  · rw [e21, tick_buf_V, hp3, tick_buf_V, hp1]
    show dequeAppend MAX_BUFFER (dequeAppend MAX_BUFFER [] _) _ = _
    rw [hsmall0, hsmall1]
  · rw [e21, tick_buf_t, hp3, tick_buf_t, hp1]
    show (dequeAppend MAX_BUFFER (dequeAppend MAX_BUFFER [] _) _).length = 2
    rw [hsmall0, hsmall1]
    rfl
  · rw [e21, tick_buf_pH_nernst, hp3, tick_buf_pH_nernst, hp1]
    show (dequeAppend MAX_BUFFER (dequeAppend MAX_BUFFER [] _) _).length = 2
    rw [hsmall0, hsmall1]
    rfl
